import Mathlib

/-!
Verification of the go-capnp connection core against its specification.

The first half embeds the serialization-side code of message.go
(read-limit accounting, Message.Reset, TotalSize and MarshalInto).
The second half models the RPC connection behaviours (answer queue,
sender-promise resolution, embargo handling) that the specification
describes; the rpc package implementation itself is not part of the
source tree under verification, so those definitions are modelled
from the specification text and are marked as such.
-/

namespace GoCapnp

/-- Bytes per Cap'n Proto word (wordSize in the capnp package). -/
def wordSize : Nat := 8

/-- Default traversal limit of 64 MiB (message.go defaultTraverseLimit). -/
def defaultTraverseLimit : Nat := 64 * 1048576

/-- Read-limit portion of a Message (message.go fields rlimit, rlimitInit and
TraverseLimit).  rlimitInitDone records whether the sync.Once has run. -/
structure MsgReadLimit where
  rlimit : Nat
  rlimitInitDone : Bool
  traverseLimit : Nat
deriving Repr, DecidableEq

/-- message.go Message.initReadLimit: store TraverseLimit into rlimit, or the
64 MiB default when TraverseLimit is zero. -/
def initReadLimit (m : MsgReadLimit) : MsgReadLimit :=
  if m.traverseLimit = 0 then
    { m with rlimit := defaultTraverseLimit, rlimitInitDone := true }
  else
    { m with rlimit := m.traverseLimit, rlimitInitDone := true }

/-- message.go Message.canRead: the body is a bare return of true; the
compare-and-swap loop below that return statement never executes. -/
def canRead (m : MsgReadLimit) (sz : Nat) : Bool × MsgReadLimit :=
  (true, m)

/-- The statements of message.go Message.canRead that sit below its first
return: run the once-guarded init, then decrement the limit when it is large
enough, otherwise refuse and zero the limit (the CAS stores the zero value of
the uninitialized new variable).  This code is unreachable in the source;
it is embedded separately to show what the dormant enforcement would do. -/
def canReadDormant (m : MsgReadLimit) (sz : Nat) : Bool × MsgReadLimit :=
  let m1 := if m.rlimitInitDone then m else initReadLimit m
  if sz ≤ m1.rlimit then
    (true, { m1 with rlimit := m1.rlimit - sz })
  else
    (false, { m1 with rlimit := 0 })

/-- A segment of a message: its byte contents, the capacity of its backing
slice, and the identity of the message it is associated with (segment fields
data and msg in the capnp package). -/
structure Segment where
  data : List Nat
  cap : Nat
  msg : Option Nat
deriving Repr, DecidableEq

/-- An arena as Message.Reset sees it: the ordered list of its segments
(Arena.NumSegments is the length, Arena.Segment i indexes into it). -/
structure Arena where
  segs : List Segment
deriving Repr, DecidableEq

/-- Modelled from the spec: Arena.Allocate is provided by arena
implementations that are not part of the source under verification.  Per the
NewMessage contract, allocation yields a segment holding at least the
requested bytes, associated with the requesting message; a fresh segment is
created when the arena is empty, otherwise the first segment grows. -/
def Arena.Allocate (a : Arena) (sz : Nat) (mId : Nat) : Arena × Segment :=
  match a.segs with
  | [] =>
      let s : Segment := ⟨List.replicate sz 0, sz, some mId⟩
      (⟨[s]⟩, s)
  | s :: rest =>
      let s2 : Segment :=
        { s with data := s.data ++ List.replicate sz 0,
                 cap := s.cap + sz,
                 msg := some mId }
      (⟨s2 :: rest⟩, s2)

/-- message.go Message.Reset, for the message identified by mId: reject an
arena with more than one segment, a non-empty first segment, or a first
segment associated with a different message; otherwise hand back a first
segment with room for the root pointer, resizing within capacity when
possible and allocating otherwise. -/
def Reset (mId : Nat) (arena : Arena) : Except String (Arena × Segment) :=
  match arena.segs with
  | [] =>
      Except.ok (Arena.Allocate arena wordSize mId)
  | [first] =>
      if first.data.length ≠ 0 then
        Except.error "arena not empty"
      else if first.msg.isSome && first.msg ≠ some mId then
        Except.error "first segment associated with different msg"
      else
        let f1 : Segment := { first with msg := some mId }
        if f1.data.length < wordSize then
          if f1.data.length = 0 && wordSize ≤ f1.cap then
            let f2 : Segment := { f1 with data := List.replicate wordSize 0 }
            Except.ok (⟨[f2]⟩, f2)
          else
            Except.ok (Arena.Allocate ⟨[f1]⟩ wordSize mId)
        else
          Except.ok (⟨[f1]⟩, f1)
  | _ =>
      Except.error "arena already has multiple segments allocated"

/-- The conditions under which message.go Message.Reset reports an error:
more than one segment, data already in the first segment, or a first segment
owned by a different message. -/
def resetRejected (mId : Nat) (a : Arena) : Bool :=
  decide (a.segs.length > 1) ||
    (match a.segs.head? with
     | some s => (s.data.length ≠ 0 : Bool) || (s.msg.isSome && s.msg ≠ some mId)
     | none => false)

/-- Whether a Reset outcome is a success. -/
def isOkResult (r : Except String (Arena × Segment)) : Bool :=
  match r with
  | Except.ok _ => true
  | Except.error _ => false

/-- Little-endian bytes of a 32-bit value, as binary.LittleEndian.AppendUint32
appends them (message.go MarshalInto). -/
def u32le (x : Nat) : List Nat :=
  [x % 256, x / 256 % 256, x / 65536 % 256, x / 16777216 % 256]

/-- Modelled from the spec: streamHeaderSize lives outside the source under
verification; the stream header is 4 bytes of segment count plus 4 bytes per
segment size, padded to a word boundary. -/
def streamHeaderSize (maxSeg : Nat) : Nat :=
  ((maxSeg + 2) * 4 + 7) / 8 * 8

/-- Modelled from the spec: the largest int the Go implementation can index
with (message.go maxInt), 2^63 - 1 on a 64-bit platform. -/
def maxInt : Nat := 9223372036854775807

/-- Modelled from the spec: the largest legal segment size; segment sizes
travel as 32-bit word counts, so (2^32 - 1) * 8 bytes. -/
def maxSegmentSize : Nat := 34359738360

/-- First loop of message.go MarshalInto: validate each segment (word
alignment, size limit, running total within int range) and accumulate the
total data size. -/
def marshalCheckLoop : List (List Nat) → Nat → Except String Nat
  | [], acc => Except.ok acc
  | s :: rest, acc =>
      let n := s.length
      if n % wordSize ≠ 0 then
        Except.error "marshal: segment not word-aligned"
      else if n > maxSegmentSize then
        Except.error "marshal: segment too large"
      else if acc + n > maxInt then
        Except.error "marshal: message size overflows int"
      else
        marshalCheckLoop rest (acc + n)

/-- Second loop of message.go MarshalInto: for each segment in turn, append
its size in words as a little-endian uint32 and then its raw bytes.  The
sizes are interleaved with the data and no padding word is ever emitted. -/
def marshalFillLoop : List (List Nat) → List Nat → Except String (List Nat)
  | [], buf => Except.ok buf
  | s :: rest, buf =>
      if s.length % wordSize ≠ 0 then
        Except.error "marshal: segment not word-aligned"
      else
        marshalFillLoop rest (buf ++ u32le (s.length / wordSize) ++ s)

/-- message.go Message.Marshal (MarshalInto with a nil buffer), over the
message's list of segment contents. -/
def Marshal (segs : List (List Nat)) : Except String (List Nat) :=
  let nsegs := segs.length
  if nsegs = 0 then
    Except.error "marshal: message has no segments"
  else
    let hdrSize := streamHeaderSize (nsegs - 1)
    if hdrSize > maxInt then
      Except.error "marshal: header size overflows int"
    else
      match marshalCheckLoop segs 0 with
      | Except.error e => Except.error e
      | Except.ok dataSize =>
          if hdrSize + dataSize > maxInt then
            Except.error "marshal: message size overflows int"
          else
            marshalFillLoop segs (u32le (nsegs - 1))

/-- message.go Message.TotalSize, over the message's list of segment
contents: a padded stream header of (nsegs/2 + 1) words plus the summed
segment lengths.  (The source function can only fail when a segment is
missing from the arena, which cannot happen here where the segments are
given directly.) -/
def TotalSize (segs : List (List Nat)) : Nat :=
  (segs.length / 2 + 1) * 8 + (segs.map List.length).sum

/-- A two-segment message, each segment one zeroed word: the smallest
word-aligned message with an even number of segments. -/
def twoSegMsg : List (List Nat) := [List.replicate 8 0, List.replicate 8 0]

/-- Modelled from the spec: a wire capability descriptor (section 3); the
variants needed at Level 1. -/
inductive CapDesc where
  | capNone
  | senderHosted (id : Nat)
  | senderPromise (id : Nat)
  | receiverHosted (id : Nat)
deriving Repr, DecidableEq

/-- Modelled from the spec: a call target on the wire, either an entry of the
receiver's export table or a pipelined answer. -/
inductive MsgTarget where
  | importedCap (id : Nat)
  | promisedAnswer (qid : Nat)
deriving Repr, DecidableEq

/-- Modelled from the spec: the wire messages of section 6 that the claims
mention, with their essential fields. -/
inductive WireMsg where
  | bootstrapMsg (qid : Nat)
  | returnResults (aid : Nat) (caps : List CapDesc)
  | callMsg (qid : Nat) (target : MsgTarget) (ifaceId : Nat) (methodId : Nat)
  | resolveCap (pid : Nat) (cap : CapDesc)
  | finishMsg (qid : Nat) (releaseResultCaps : Bool)
  | disembargoSL (k : Nat) (target : MsgTarget)
  | disembargoRL (k : Nat) (target : MsgTarget)
  | releaseMsg (id : Nat) (count : Nat)
  | abortMsg
deriving Repr, DecidableEq

/-- Modelled from the spec: an event on the answer queue of a local promise
(section 4.C): a call pushed against the unresolved target, or the one
fulfilment carrying the resolution target. -/
inductive AQEv where
  | push (c : Nat)
  | fulfill (t : Nat)
deriving Repr, DecidableEq

/-- Modelled from the spec: the state of an answer queue (section 4.C; the
AnswerQueue used by NewLocalPromise is not part of the source under
verification).  target is the resolution target once fulfilled, queued the
buffered calls in arrival order, forwarded the (call, target) pairs already
forwarded, in forwarding order. -/
structure AQState where
  target : Option Nat
  queued : List Nat
  forwarded : List (Nat × Nat)
deriving Repr, DecidableEq

/-- Modelled from the spec: one answer-queue transition.  push appends while
unresolved and forwards immediately once resolved; fulfill drains the queue
in arrival order against the target; a second fulfill is ignored. -/
def aqStep (s : AQState) (e : AQEv) : AQState :=
  match e with
  | AQEv.push c =>
      match s.target with
      | some t => { s with forwarded := s.forwarded ++ [(c, t)] }
      | none => { s with queued := s.queued ++ [c] }
  | AQEv.fulfill t =>
      match s.target with
      | some _ => s
      | none =>
          { target := some t, queued := [],
            forwarded := s.forwarded ++ s.queued.map (fun c => (c, t)) }

/-- Answer queue initial state: unresolved, nothing buffered or forwarded. -/
def aqInit : AQState := ⟨none, [], []⟩

/-- Run an answer queue over a sequence of events. -/
def aqRun (s : AQState) (evs : List AQEv) : AQState :=
  evs.foldl aqStep s

/-- Modelled from the spec: the phase of a capability proxy whose promise may
resolve either toward the same peer or back into the sender's vat (sections
4.F and 5): still waiting on the promise, embargoed after a loopback resolve,
or resolved with the direct path open. -/
inductive PPhase where
  | waiting
  | embargoing
  | direct
deriving Repr, DecidableEq

/-- Modelled from the spec: the calls visible around such a proxy.  queued
holds calls buffered on the unresolved promise, embargoed holds direct calls
held back until the disembargo echo, delivered is what the final callee has
observed, in order. -/
structure PState where
  phase : PPhase
  queued : List Nat
  embargoed : List Nat
  delivered : List Nat
deriving Repr, DecidableEq

/-- Modelled from the spec: events racing around the proxy — a user call
submission, the fulfilment when resolution targets the same peer (queue
replay), the fulfilment when resolution loops back (starts an embargo after
replaying the queue), and the disembargo echo that lifts the embargo. -/
inductive PEv where
  | submit (c : Nat)
  | fulfillDirect
  | resolveLoopback
  | disembargoEcho
deriving Repr, DecidableEq

/-- Modelled from the spec: one proxy transition (sections 4.C, 4.F, 4.G).
Submissions are queued, embargoed or delivered according to the phase;
either form of fulfilment replays the queue in arrival order; the echo
releases the embargoed calls in arrival order. -/
def pStep (s : PState) (e : PEv) : PState :=
  match e with
  | PEv.submit c =>
      match s.phase with
      | PPhase.waiting => { s with queued := s.queued ++ [c] }
      | PPhase.embargoing => { s with embargoed := s.embargoed ++ [c] }
      | PPhase.direct => { s with delivered := s.delivered ++ [c] }
  | PEv.fulfillDirect =>
      match s.phase with
      | PPhase.waiting =>
          { s with phase := PPhase.direct,
                   delivered := s.delivered ++ s.queued, queued := [] }
      | _ => s
  | PEv.resolveLoopback =>
      match s.phase with
      | PPhase.waiting =>
          { s with phase := PPhase.embargoing,
                   delivered := s.delivered ++ s.queued, queued := [] }
      | _ => s
  | PEv.disembargoEcho =>
      match s.phase with
      | PPhase.embargoing =>
          { s with phase := PPhase.direct,
                   delivered := s.delivered ++ s.embargoed, embargoed := [] }
      | _ => s

/-- Run the proxy from its initial state (unresolved, nothing pending). -/
def pRun (evs : List PEv) : PState :=
  evs.foldl pStep ⟨PPhase.waiting, [], [], []⟩

/-- The calls submitted in an event sequence, in submission order. -/
def submissions : List PEv → List Nat
  | [] => []
  | PEv.submit c :: rest => c :: submissions rest
  | _ :: rest => submissions rest

/-- All calls a run has accepted, in the order the final callee is bound to
observe them: already delivered first, then the replay of the promise queue,
then the embargoed direct calls. -/
def pObs (s : PState) : List Nat :=
  s.delivered ++ s.queued ++ s.embargoed

/-- Phase soundness: at most one holding area is in use, matching the
phase. -/
def pInv (s : PState) : Prop :=
  (s.phase = PPhase.waiting → s.embargoed = []) ∧
    (s.phase = PPhase.embargoing → s.queued = []) ∧
    (s.phase = PPhase.direct → s.queued = [] ∧ s.embargoed = [])

/-- Modelled from the spec: connection state for the sender-promise
fulfilment scenario (section 8 scenario 1): the export-id allocator and the
export id under which the bootstrap promise went out. -/
structure SPConn where
  nextExport : Nat
  promiseExport : Option Nat
deriving Repr, DecidableEq

/-- Modelled from the spec: answering Bootstrap on a connection whose
bootstrap capability is an unresolved local promise: allocate a fresh export
id for it and return a single senderPromise descriptor. -/
def spHandleBootstrap (c : SPConn) (q : Nat) : SPConn × List WireMsg :=
  ({ nextExport := c.nextExport + 1, promiseExport := some c.nextExport },
   [WireMsg.returnResults q [CapDesc.senderPromise c.nextExport]])

/-- Modelled from the spec: fulfilling that promise with a concrete locally
hosted capability: the capability is exported under a fresh id and a Resolve
for the promise export is emitted naming it senderHosted. -/
def spFulfill (c : SPConn) : SPConn × List WireMsg :=
  match c.promiseExport with
  | some e0 =>
      ({ c with nextExport := c.nextExport + 1 },
       [WireMsg.resolveCap e0 (CapDesc.senderHosted c.nextExport)])
  | none => (c, [])

/-- Modelled from the spec: the record a connection keeps of Resolve messages
it sent that point into the receiver's vat (sections 4.F and 4.G): promise
export id paired with the receiver-hosted capability id it resolved to. -/
def lookupResolved (st : List (Nat × Nat)) (pid : Nat) : Option Nat :=
  match st.find? (fun p => p.fst == pid) with
  | some p => some p.snd
  | none => none

/-- Modelled from the spec: handling Disembargo with a senderLoopback context
(section 4.H dispatch): when the named promise was resolved into the
receiver's vat, echo exactly one Disembargo with a receiverLoopback context
quoting the same embargo id, targeting the capability the promise resolved
to; an unmatched target aborts the connection. -/
def handleDisembargoSL (st : List (Nat × Nat)) (k : Nat) (pid : Nat) : List WireMsg :=
  match lookupResolved st pid with
  | some rid => [WireMsg.disembargoRL k (MsgTarget.importedCap rid)]
  | none => [WireMsg.abortMsg]

/-- Modelled from the spec: reference accounting for the unimplemented-resolve
scenario (section 8 scenario 2).  The underlying capability is held by the
promise export (once fulfilled) and by the answer whose results referenced
it; its shutdown hook fires when neither holds it any longer. -/
structure DropState where
  exportHeld : Bool
  answerHeld : Bool
  shutdownFired : Bool
deriving Repr, DecidableEq

/-- Fire the shutdown hook once no reference remains. -/
def dropFire (s : DropState) : DropState :=
  if !s.exportHeld && !s.answerHeld then { s with shutdownFired := true } else s

/-- Modelled from the spec: an unimplemented message echoing our Resolve
drops the export for that promise immediately, with no Release from the
peer required (section 4.G). -/
def handleUnimplementedResolve (s : DropState) : DropState :=
  dropFire { s with exportHeld := false }

/-- Modelled from the spec: Finish with releaseResultCaps set releases the
exports referenced by the question's results (section 4.E). -/
def handleFinishReleaseCaps (s : DropState) : DropState :=
  dropFire { s with answerHeld := false }

/-- Modelled from the spec: what a capability proxy points at — a remote
capability imported over the connection, or, after path shortening, one in
the local vat (section 4.G step 5). -/
inductive ProxyTarget where
  | remoteImport (id : Nat)
  | localCap
deriving Repr, DecidableEq

/-- Modelled from the spec: a proxy and the liveness of the connection it
came from. -/
structure Proxy where
  target : ProxyTarget
  connClosed : Bool
deriving Repr, DecidableEq

/-- Modelled from the spec: a loopback resolve swings the proxy to point
directly at the locally hosted capability (section 4.G step 5). -/
def swingToLocal (p : Proxy) : Proxy :=
  { p with target := ProxyTarget.localCap }

/-- Closing the connection the proxy was received over. -/
def closeProxyConn (p : Proxy) : Proxy :=
  { p with connClosed := true }

/-- Modelled from the spec: calling through the proxy.  A remote target
reports Disconnected once the connection is closed (section 7); a local
target dispatches locally — for the echo server of the test, returning its
argument — regardless of connection state. -/
def proxyCall (p : Proxy) (n : Nat) : Except String Nat :=
  match p.target with
  | ProxyTarget.remoteImport _ =>
      if p.connClosed then Except.error "disconnected" else Except.ok n
  | ProxyTarget.localCap => Except.ok n

/-- Modelled from the spec: the state of connection P1 in the
loopback-with-pipelining scenario (section 8 scenario 4): id allocators, the
export id of the bootstrap promise, the pipelined calls buffered on it
(peer question id, interface, method), the forwarded calls (our question id
paired with the peer question id it answers), the peer questions whose
results have arrived but whose Return is withheld for the disembargo replay,
and the receiver-hosted capability the promise resolved to. -/
structure P1State where
  nextExport : Nat
  nextQuestion : Nat
  promiseExport : Option Nat
  queuedCalls : List (Nat × Nat × Nat)
  forwarded : List (Nat × Nat)
  readyReturns : List Nat
  resolvedTo : Option Nat
deriving Repr, DecidableEq

/-- Modelled from the spec: the inputs P1 sees in that scenario: the
Bootstrap question, a pipelined Call on the promised answer, the local
fulfilment of the promise with the peer-hosted capability rid, the peer's
Return for a forwarded call, and the peer's senderLoopback Disembargo. -/
inductive P1Ev where
  | recvBootstrap (q : Nat)
  | recvPromiseCall (q : Nat) (ifc : Nat) (mth : Nat)
  | fulfillWith (rid : Nat)
  | recvReturn (aid : Nat)
  | recvDisembargoSL (k : Nat)
deriving Repr, DecidableEq

/-- Forward the buffered pipelined calls toward the resolution target in
arrival order, allocating consecutive question ids from qid: the Call
messages to send and the (question id, peer question id) pairs to record. -/
def forwardQueued (qid : Nat) (rid : Nat) :
    List (Nat × Nat × Nat) → List WireMsg × List (Nat × Nat)
  | [] => ([], [])
  | (q, ifc, mth) :: rest =>
      let r := forwardQueued (qid + 1) rid rest
      (WireMsg.callMsg qid (MsgTarget.importedCap rid) ifc mth :: r.fst,
       (qid, q) :: r.snd)

/-- Modelled from the spec: one step of P1.  Bootstrap returns a
senderPromise export; calls on the promised answer are buffered (section
4.C); fulfilment first forwards the buffered calls toward the resolved
target and then sends the Resolve naming it receiverHosted (section 8
scenario 4); the Return for a forwarded call readies the withheld Return to
the peer and finishes our question; the senderLoopback Disembargo first
delivers the withheld Returns and only then echoes receiverLoopback with the
same embargo id (section 4.F). -/
def p1Step (s : P1State) (e : P1Ev) : P1State × List WireMsg :=
  match e with
  | P1Ev.recvBootstrap q =>
      ({ s with nextExport := s.nextExport + 1,
                promiseExport := some s.nextExport },
       [WireMsg.returnResults q [CapDesc.senderPromise s.nextExport]])
  | P1Ev.recvPromiseCall q ifc mth =>
      ({ s with queuedCalls := s.queuedCalls ++ [(q, ifc, mth)] }, [])
  | P1Ev.fulfillWith rid =>
      let fwd := forwardQueued s.nextQuestion rid s.queuedCalls
      let resolveMsgs :=
        match s.promiseExport with
        | some e0 => [WireMsg.resolveCap e0 (CapDesc.receiverHosted rid)]
        | none => []
      ({ s with resolvedTo := some rid,
                queuedCalls := [],
                nextQuestion := s.nextQuestion + s.queuedCalls.length,
                forwarded := s.forwarded ++ fwd.snd },
       fwd.fst ++ resolveMsgs)
  | P1Ev.recvReturn aid =>
      match s.forwarded.find? (fun p => p.fst == aid) with
      | some p =>
          ({ s with readyReturns := s.readyReturns ++ [p.snd] },
           [WireMsg.finishMsg aid true])
      | none => (s, [])
  | P1Ev.recvDisembargoSL k =>
      match s.resolvedTo with
      | some rid =>
          ({ s with readyReturns := [] },
           s.readyReturns.map (fun q => WireMsg.returnResults q []) ++
             [WireMsg.disembargoRL k (MsgTarget.importedCap rid)])
      | none => (s, [WireMsg.abortMsg])

/-- Run P1 over a sequence of inputs, concatenating its outputs in order. -/
def p1Run : P1State → List P1Ev → P1State × List WireMsg
  | s, [] => (s, [])
  | s, e :: rest =>
      let r1 := p1Step s e
      let r2 := p1Run r1.fst rest
      (r2.fst, r1.snd ++ r2.snd)

/-- P1's initial state: fresh allocators, nothing exported or buffered. -/
def p1Init : P1State := ⟨0, 0, none, [], [], [], none⟩

/-- The input script of the loopback-with-pipelining scenario: Bootstrap,
a pipelined call on the promised answer, the fulfilment, the peer's Return
for the forwarded call (P1's question 0), and the senderLoopback
Disembargo. -/
def loopbackScript (cq : Nat) (ifc : Nat) (mth : Nat) (rid : Nat) (k : Nat) :
    List P1Ev :=
  [P1Ev.recvBootstrap 0, P1Ev.recvPromiseCall cq ifc mth,
   P1Ev.fulfillWith rid, P1Ev.recvReturn 0, P1Ev.recvDisembargoSL k]

/-- Claim C8: traversal-limit enforcement is dormant — canRead answers true
for every message state and every requested size, leaving the read-limit
state untouched; the limit-checking code below the return (embedded as
canReadDormant) would behave differently, refusing a 1-byte read against an
exhausted limit. -/
theorem canRead_unconditional :
    (∀ (m : MsgReadLimit) (sz : Nat), canRead m sz = (true, m)) ∧
      (canReadDormant ⟨0, true, 0⟩ 1).fst = false := by
  exact ⟨fun m sz => rfl, rfl⟩

/-- Claim C10 (failing input): for the two-segment message whose segments
are each one word, TotalSize reports 32 bytes while Marshal produces a
28-byte slice — MarshalInto interleaves each segment's size word with its
data and never pads the stream header, so the two disagree whenever the
number of segments is even. -/
theorem totalSize_marshal_mismatch :
    TotalSize twoSegMsg = 32 ∧
      Except.map List.length (Marshal twoSegMsg) = Except.ok 28 := by
  exact ⟨rfl, rfl⟩

/-- Claim C3: a Disembargo with senderLoopback context and embargo id k,
received for a promise whose Resolve pointed into the receiver's vat at
capability rid, is answered by exactly one Disembargo with receiverLoopback
context quoting the same id k and targeting importedCap rid. -/
theorem disembargo_roundtrip_echo (st : List (Nat × Nat)) (k : Nat)
    (pid : Nat) (rid : Nat) (h : lookupResolved st pid = some rid) :
    handleDisembargoSL st k pid =
      [WireMsg.disembargoRL k (MsgTarget.importedCap rid)] := by
  simp [handleDisembargoSL, h]

/-- Witness for claim C3 at the concrete state where promise 3 resolved to
the receiver-hosted capability 12 and the embargo id is 7. -/
theorem disembargo_roundtrip_echo_witness :
    handleDisembargoSL [(3, 12)] 7 3 =
      [WireMsg.disembargoRL 7 (MsgTarget.importedCap 12)] :=
  disembargo_roundtrip_echo [(3, 12)] 7 3 12 (by decide)

/-- Claim C4: answering Bootstrap q on a connection whose bootstrap is an
unresolved local promise returns a Return for q whose capability table is
the single descriptor senderPromise E0 (the freshly allocated export id),
and the subsequent fulfilment emits Resolve with promiseId E0 naming
senderHosted E1 where E1 is a different export id. -/
theorem sender_promise_fulfill_resolve (n : Nat) (q : Nat) :
    (spHandleBootstrap ⟨n, none⟩ q).snd =
        [WireMsg.returnResults q [CapDesc.senderPromise n]] ∧
      (spFulfill (spHandleBootstrap ⟨n, none⟩ q).fst).snd =
        [WireMsg.resolveCap n (CapDesc.senderHosted (n + 1))] ∧
      n + 1 ≠ n := by
  refine ⟨rfl, rfl, Nat.succ_ne_self n⟩

/-- Claim C5: an unimplemented message echoing our Resolve drops the export
for the promise immediately — no Release from the peer intervenes — while
the shutdown hook of the underlying capability has not yet fired; it fires
once the peer's Finish with releaseResultCaps set releases the answer's
reference. -/
theorem unimplemented_resolve_drops_export :
    (handleUnimplementedResolve ⟨true, true, false⟩).exportHeld = false ∧
      (handleUnimplementedResolve ⟨true, true, false⟩).shutdownFired = false ∧
      (handleFinishReleaseCaps
        (handleUnimplementedResolve ⟨true, true, false⟩)).shutdownFired = true := by
  decide

/-- Claim C6: after a loopback resolve has swung the proxy to the locally
hosted capability, every call made through the originally received proxy
succeeds even after the connection is closed; without the swing the same
call would report disconnected. -/
theorem path_shortening_survives_close (p : Proxy) (n : Nat) :
    proxyCall (closeProxyConn (swingToLocal p)) n = Except.ok n ∧
      proxyCall (closeProxyConn ⟨ProxyTarget.remoteImport 0, false⟩) n =
        Except.error "disconnected" := by
  exact ⟨rfl, rfl⟩

/-- Claim C2: in the loopback-with-pipelining scenario, P1's outbound
messages come in exactly this order: the Return answering Bootstrap with the
senderPromise export; after the fulfilment, first the forwarded pipelined
Call toward the peer and then the Resolve naming receiverHosted; the Finish
for the forwarded question; and after the peer's senderLoopback Disembargo,
first the Return for the queued pipelined call and only then the
receiverLoopback Disembargo echoing the same embargo id. -/
theorem loopback_pipeline_order (cq : Nat) (ifc : Nat) (mth : Nat)
    (rid : Nat) (k : Nat) :
    (p1Run p1Init (loopbackScript cq ifc mth rid k)).snd =
      [WireMsg.returnResults 0 [CapDesc.senderPromise 0],
       WireMsg.callMsg 0 (MsgTarget.importedCap rid) ifc mth,
       WireMsg.resolveCap 0 (CapDesc.receiverHosted rid),
       WireMsg.finishMsg 0 true,
       WireMsg.returnResults cq [],
       WireMsg.disembargoRL k (MsgTarget.importedCap rid)] := by
  rfl

/-- Pushing while the answer queue is unresolved only appends to the buffer,
in arrival order. -/
theorem aqRun_push_unresolved (xs : List Nat) (q : List Nat)
    (f : List (Nat × Nat)) :
    aqRun ⟨none, q, f⟩ (xs.map AQEv.push) = ⟨none, q ++ xs, f⟩ := by
  induction xs generalizing q with
  | nil => simp [aqRun]
  | cons c rest ih =>
      simp only [List.map_cons, aqRun, List.foldl_cons, aqStep]
      have h := ih (q ++ [c])
      simp only [aqRun] at h
      rw [h]
      simp

/-- Pushing once the answer queue is resolved forwards immediately against
the target, in arrival order. -/
theorem aqRun_push_resolved (ys : List Nat) (t : Nat) (f : List (Nat × Nat)) :
    aqRun ⟨some t, [], f⟩ (ys.map AQEv.push) =
      ⟨some t, [], f ++ ys.map (fun c => (c, t))⟩ := by
  induction ys generalizing f with
  | nil => simp [aqRun]
  | cons c rest ih =>
      simp only [List.map_cons, aqRun, List.foldl_cons, aqStep]
      have h := ih (f ++ [(c, t)])
      simp only [aqRun] at h
      rw [h]
      simp

/-- Claim C7: for every sequence of pushes xs before the fulfilment and ys
after it, fulfilling with target t forwards every buffered call against t in
arrival order — the forwarding order is exactly the enqueue order xs ++ ys,
so every push observed before the fulfill is forwarded before any push
observed after it, and the queue is left empty and resolved. -/
theorem answer_queue_fifo_drain (xs : List Nat) (ys : List Nat) (t : Nat) :
    aqRun aqInit (xs.map AQEv.push ++ AQEv.fulfill t :: ys.map AQEv.push) =
      ⟨some t, [], (xs ++ ys).map (fun c => (c, t))⟩ := by
  have h1 := aqRun_push_unresolved xs [] []
  have h2 := aqRun_push_resolved ys t (xs.map (fun c => (c, t)))
  simp only [aqRun, aqInit] at h1 h2 ⊢
  rw [List.foldl_append, h1, List.foldl_cons]
  simp only [aqStep]
  simpa using h2

/-- A single proxy step preserves phase soundness and only ever appends the
submitted call (if the event is a submission) to the observation order. -/
theorem pStep_inv (s : PState) (e : PEv) (h : pInv s) :
    pInv (pStep s e) ∧ pObs (pStep s e) = pObs s ++ submissions [e] := by
  obtain ⟨hw, he, hd⟩ := h
  cases e with
  | submit c =>
      cases hp : s.phase with
      | waiting =>
          have hemb := hw hp
          refine ⟨⟨?_, ?_, ?_⟩, ?_⟩ <;>
            simp [pStep, pObs, pInv, submissions, hp, hemb]
      | embargoing =>
          have hq := he hp
          refine ⟨⟨?_, ?_, ?_⟩, ?_⟩ <;>
            simp [pStep, pObs, pInv, submissions, hp, hq]
      | direct =>
          obtain ⟨hq, hemb⟩ := hd hp
          refine ⟨⟨?_, ?_, ?_⟩, ?_⟩ <;>
            simp [pStep, pObs, pInv, submissions, hp, hq, hemb]
  | fulfillDirect =>
      cases hp : s.phase with
      | waiting =>
          have hemb := hw hp
          refine ⟨⟨?_, ?_, ?_⟩, ?_⟩ <;>
            simp [pStep, pObs, pInv, submissions, hp, hemb]
      | embargoing =>
          refine ⟨⟨?_, ?_, ?_⟩, ?_⟩ <;>
            simp [pStep, pObs, pInv, submissions, hp, he hp]
      | direct =>
          refine ⟨⟨?_, ?_, ?_⟩, ?_⟩ <;>
            simp [pStep, pObs, pInv, submissions, hp, (hd hp).1, (hd hp).2]
  | resolveLoopback =>
      cases hp : s.phase with
      | waiting =>
          have hemb := hw hp
          refine ⟨⟨?_, ?_, ?_⟩, ?_⟩ <;>
            simp [pStep, pObs, pInv, submissions, hp, hemb]
      | embargoing =>
          refine ⟨⟨?_, ?_, ?_⟩, ?_⟩ <;>
            simp [pStep, pObs, pInv, submissions, hp, he hp]
      | direct =>
          refine ⟨⟨?_, ?_, ?_⟩, ?_⟩ <;>
            simp [pStep, pObs, pInv, submissions, hp, (hd hp).1, (hd hp).2]
  | disembargoEcho =>
      cases hp : s.phase with
      | waiting =>
          refine ⟨⟨?_, ?_, ?_⟩, ?_⟩ <;>
            simp [pStep, pObs, pInv, submissions, hp, hw hp]
      | embargoing =>
          have hq := he hp
          refine ⟨⟨?_, ?_, ?_⟩, ?_⟩ <;>
            simp [pStep, pObs, pInv, submissions, hp, hq]
      | direct =>
          refine ⟨⟨?_, ?_, ?_⟩, ?_⟩ <;>
            simp [pStep, pObs, pInv, submissions, hp, (hd hp).1, (hd hp).2]

/-- Splitting the submissions of an event sequence at its head. -/
theorem submissions_cons (e : PEv) (rest : List PEv) :
    submissions (e :: rest) = submissions [e] ++ submissions rest := by
  cases e <;> simp [submissions]

/-- Running the proxy from any sound state appends exactly the submitted
calls, in submission order, to the observation order. -/
theorem pRun_aux (evs : List PEv) (s : PState) (h : pInv s) :
    pInv (List.foldl pStep s evs) ∧
      pObs (List.foldl pStep s evs) = pObs s ++ submissions evs := by
  induction evs generalizing s with
  | nil => simpa [submissions] using h
  | cons e rest ih =>
      obtain ⟨h1, h2⟩ := pStep_inv s e h
      obtain ⟨h3, h4⟩ := ih (pStep s e) h1
      refine ⟨h3, ?_⟩
      rw [List.foldl_cons, h4, h2, List.append_assoc, ← submissions_cons]

/-- Claim C1: for every interleaving of call submissions with the promise's
fulfilment — whether resolution targets the same peer (fulfillDirect, queue
replay) or loops back (resolveLoopback followed by the disembargo echo,
embargo replay) — once nothing remains buffered, the final callee has
observed the calls in exactly their submission order; in particular any call
a submitted before a call b is observed before it, for every number of
calls. -/
theorem promise_fulfilment_order (evs : List PEv)
    (hq : (pRun evs).queued = []) (hb : (pRun evs).embargoed = []) :
    (pRun evs).delivered = submissions evs := by
  have h := pRun_aux evs ⟨PPhase.waiting, [], [], []⟩ (by simp [pInv])
  have h2 := h.2
  simp only [pRun] at hq hb ⊢
  simp only [pObs, hq, hb, List.append_nil] at h2
  simpa [pObs] using h2

/-- Witness for claim C1 on a concrete embargo-replay interleaving: one call
before the loopback resolve, one during the embargo, one after the echo. -/
theorem promise_fulfilment_order_witness :
    (pRun [PEv.submit 1, PEv.resolveLoopback, PEv.submit 2,
           PEv.disembargoEcho, PEv.submit 3]).delivered =
      submissions [PEv.submit 1, PEv.resolveLoopback, PEv.submit 2,
                   PEv.disembargoEcho, PEv.submit 3] :=
  promise_fulfilment_order
    [PEv.submit 1, PEv.resolveLoopback, PEv.submit 2,
     PEv.disembargoEcho, PEv.submit 3] (by decide) (by decide)

/-- Claim C9: Reset succeeds exactly when the arena does not already hold
more than one segment, its first segment holds no data, and its first
segment is not associated with a different message; and every success hands
back a first segment of at least one word (enough for the root struct
pointer), allocated when absent. -/
theorem reset_postcondition (mId : Nat) (a : Arena) :
    (isOkResult (Reset mId a) = !resetRejected mId a) ∧
      ∀ a2 s2, Reset mId a = Except.ok (a2, s2) → wordSize ≤ s2.data.length := by
  obtain ⟨segs⟩ := a
  cases segs with
  | nil =>
      refine ⟨rfl, ?_⟩
      intro a2 s2 h
      simp only [Reset, Arena.Allocate, Except.ok.injEq, Prod.mk.injEq] at h
      rw [← h.2]
      simp [wordSize]
  | cons first rest =>
      cases rest with
      | nil =>
          obtain ⟨fdata, fcap, fmsg⟩ := first
          cases fdata with
          | cons b bs =>
              refine ⟨by simp [Reset, resetRejected, isOkResult], ?_⟩
              intro a2 s2 h
              simp [Reset] at h
          | nil =>
              cases fmsg with
              | none =>
                  by_cases hcap : 8 ≤ fcap
                  · refine ⟨by simp [Reset, resetRejected, isOkResult,
                        wordSize, hcap], ?_⟩
                    intro a2 s2 h
                    simp [Reset, wordSize, hcap] at h
                    rw [← h.2]
                    simp [wordSize]
                  · refine ⟨by simp [Reset, resetRejected, isOkResult,
                        wordSize, hcap], ?_⟩
                    intro a2 s2 h
                    simp [Reset, wordSize, hcap, Arena.Allocate] at h
                    rw [← h.2]
                    simp [wordSize]
              | some x =>
                  by_cases hx : x = mId
                  · subst hx
                    by_cases hcap : 8 ≤ fcap
                    · refine ⟨by simp [Reset, resetRejected, isOkResult,
                          wordSize, hcap], ?_⟩
                      intro a2 s2 h
                      simp [Reset, wordSize, hcap] at h
                      rw [← h.2]
                      simp [wordSize]
                    · refine ⟨by simp [Reset, resetRejected, isOkResult,
                          wordSize, hcap], ?_⟩
                      intro a2 s2 h
                      simp [Reset, wordSize, hcap, Arena.Allocate] at h
                      rw [← h.2]
                      simp [wordSize]
                  · refine ⟨by simp [Reset, resetRejected, isOkResult, hx], ?_⟩
                    intro a2 s2 h
                    simp [Reset, hx] at h
      | cons snd rest2 =>
          refine ⟨?_, ?_⟩
          · have hr : resetRejected mId ⟨first :: snd :: rest2⟩ = true := by
              simp only [resetRejected, List.length_cons, Bool.or_eq_true,
                         decide_eq_true_eq]
              left
              omega
            simp [Reset, isOkResult, hr]
          · intro a2 s2 h
            simp [Reset] at h

/-- Witness for claim C9 at the empty arena: Reset succeeds (the arena is
not rejected) and the allocated first segment holds a full word. -/
theorem reset_postcondition_witness :
    (isOkResult (Reset 0 ⟨[]⟩) = !resetRejected 0 ⟨[]⟩) ∧
      wordSize ≤ (Segment.mk (List.replicate 8 0) 8 (some 0)).data.length :=
  ⟨(reset_postcondition 0 ⟨[]⟩).1,
   (reset_postcondition 0 ⟨[]⟩).2 ⟨[⟨List.replicate 8 0, 8, some 0⟩]⟩
     ⟨List.replicate 8 0, 8, some 0⟩ (by rfl)⟩

end GoCapnp
